import Mathlib

/-
Verification of the contact-backend delivery subsystem
(backend/mailer.py, backend/email_queue.py, backend/rate_limit.py,
backend/ai_formatter.py, backend/audit.py, backend/app.py).

Python strings are modelled as lists of characters (`PyStr`); floating point
time and backoff arithmetic is modelled over the rationals; the external
effects (SMTP session, HTTP POST, sqlite, the generative API) are modelled
as explicit action lists and outcome oracles.
-/

/-- Python strings, modelled as their sequence of code points. -/
abbrev PyStr := List Char

/-- Predicate used by Python str.strip with no arguments (whitespace). -/
def pyIsSpace (c : Char) : Bool := c.isWhitespace

/-- Python str.lstrip with no arguments. -/
def pyLStrip (s : PyStr) : PyStr := s.dropWhile pyIsSpace

/-- Python str.rstrip with no arguments. -/
def pyRStrip (s : PyStr) : PyStr := (s.reverse.dropWhile pyIsSpace).reverse

/-- Python str.strip with no arguments. -/
def pyStrip (s : PyStr) : PyStr := pyRStrip (pyLStrip s)

/-- Python str.lower, restricted to the ASCII range (sufficient here: all
classification-relevant characters are ASCII). -/
def pyLower (s : PyStr) : PyStr := s.map Char.toLower

/-- Python truthiness of an optional string (None and the empty string are
falsy, every other string is truthy). -/
def pyTruthy (s : Option PyStr) : Bool :=
  match s with
  | none => false
  | some t => !t.isEmpty

/-- Python `a or b` on optional strings: the first operand when truthy,
otherwise the second operand. -/
def pyOrOpt (a b : Option PyStr) : Option PyStr := if pyTruthy a then a else b

/-- Python `a or d` where d is a plain string. -/
def pyOrDflt (a : Option PyStr) (d : PyStr) : PyStr :=
  match a with
  | none => d
  | some s => if s.isEmpty then d else s

/-- The literal prefix tested by mailer._partition_recipients. -/
def httpPfx : PyStr := ("http://").toList

/-- The second literal prefix tested by mailer._partition_recipients. -/
def httpsPfx : PyStr := ("https://").toList

/-- Result of classifying one recipient string inside
mailer._partition_recipients: blank strings are skipped, strings whose
lowercase form starts with http:// or https:// are webhooks, and every
other non-blank string lands in the email list (the final else branch of
the source also appends to emails). -/
inductive RecipientClass
  | skipped
  | webhook
  | email
deriving DecidableEq, Repr

/-- Classification of a single recipient, following the loop body of
mailer._partition_recipients: strip, skip if empty, webhook if the
lowercased string starts with http:// or https://, else email (both the
elif branch and the catch-all else branch of the source append to the
email list). -/
def classifyRecipient (r : PyStr) : RecipientClass :=
  let t := pyStrip r
  if t.isEmpty then RecipientClass.skipped
  else if httpPfx.isPrefixOf (pyLower t) || httpsPfx.isPrefixOf (pyLower t) then
    RecipientClass.webhook
  else if t.contains '@' && !(t.contains '/') then RecipientClass.email
  else RecipientClass.email

/-- mailer._partition_recipients: returns (emails, webhooks), each recipient
stripped, in input order. -/
def partitionRecipients : List PyStr → List PyStr × List PyStr
  | [] => ([], [])
  | r :: rest =>
    let p := partitionRecipients rest
    match classifyRecipient r with
    | RecipientClass.skipped => p
    | RecipientClass.webhook => (p.1, pyStrip r :: p.2)
    | RecipientClass.email => (pyStrip r :: p.1, p.2)

/-- JSON value appearing in the webhook POST payload: the payload fields are
either strings or null (reply_to and from may be None). -/
inductive JsonVal
  | jstr (s : PyStr)
  | jnull
deriving DecidableEq, Repr

/-- Convert an optional Python string to the JSON value json.dumps produces
for it (None becomes null). -/
def optJson : Option PyStr → JsonVal
  | none => JsonVal.jnull
  | some s => JsonVal.jstr s

/-- The dict literal built for each webhook recipient in mailer.send_email
(lines 102-107): exactly the keys subject, body, reply_to, from, in this
order. -/
def webhookPayload (subject body : PyStr) (replyTo fromVal : Option PyStr) :
    List (PyStr × JsonVal) :=
  [(("subject").toList, JsonVal.jstr subject),
   (("body").toList, JsonVal.jstr body),
   (("reply_to").toList, optJson replyTo),
   (("from").toList, optJson fromVal)]

/-- External effects performed by mailer.send_email: one SMTP send, one dev
fallback console emission, or one HTTP POST per webhook recipient. -/
inductive DispatchAction
  | smtpSend (sender : PyStr) (recipients : List PyStr) (subject body : PyStr)
      (replyTo fromOverride : Option PyStr)
  | devPrint (fromField : Option PyStr) (recipients : List PyStr)
      (replyTo : Option PyStr) (subject body : PyStr)
  | webhookPost (url : PyStr) (payload : List (PyStr × JsonVal))
deriving DecidableEq, Repr

/-- The MailSendError raises in mailer.send_email before any transport is
attempted. -/
inductive MailConfigError
  | mailFromNotConfigured
  | noRecipients
deriving DecidableEq, Repr

/-- Environment configuration read by mailer.send_email: MAIL_FROM,
ALLOW_SUBMITTER_AS_FROM (already parsed to a flag by the in-set test on the
lowercased value) and SMTP_HOST. -/
structure MailEnv where
  mailFrom : Option PyStr
  allowSubmitterAsFrom : Bool
  smtpHost : Option PyStr
deriving DecidableEq, Repr

/-- mailer.send_email, modelled up to the transport boundary: it either
raises one of the two configuration errors or produces the list of
transport actions it performs (SMTP or dev console emission for the email
partition, then one POST per webhook). -/
def sendEmail (env : MailEnv) (recipients : List PyStr) (subject body : PyStr)
    (replyTo fromOverride : Option PyStr) :
    Except MailConfigError (List DispatchAction) :=
  let sender := env.mailFrom
  if !pyTruthy sender && !pyTruthy fromOverride then
    Except.error MailConfigError.mailFromNotConfigured
  else
    let part := partitionRecipients recipients
    let emails := part.1
    let webhooks := part.2
    if emails.isEmpty && webhooks.isEmpty then
      Except.error MailConfigError.noRecipients
    else
      let effOverride := if env.allowSubmitterAsFrom && pyTruthy fromOverride
        then fromOverride else none
      let emailActions : List DispatchAction :=
        if emails.isEmpty then []
        else if pyTruthy env.smtpHost then
          [DispatchAction.smtpSend (pyOrDflt (pyOrOpt sender effOverride) [])
            emails subject body replyTo effOverride]
        else
          [DispatchAction.devPrint (pyOrOpt effOverride sender) emails replyTo
            subject body]
      let webhookActions := webhooks.map (fun url =>
        DispatchAction.webhookPost url
          (webhookPayload subject body replyTo (pyOrOpt effOverride sender)))
      Except.ok (emailActions ++ webhookActions)

/-- A contact submission as seen by ai_formatter: the three dict fields,
none meaning the key is absent (dict.get with default). -/
structure Submission where
  name : Option PyStr
  email : Option PyStr
  message : Option PyStr
deriving DecidableEq, Repr

/-- Python submission.get(key, "").strip() or dflt. -/
def pyGetStrip (f : Option PyStr) (dflt : PyStr) : PyStr :=
  let t := pyStrip (f.getD [])
  if t.isEmpty then dflt else t

/-- ai_formatter._fallback_format: the deterministic fallback
(subject, body) template. -/
def fallbackFormat (s : Submission) : PyStr × PyStr :=
  let name := pyGetStrip s.name (("Someone").toList)
  let email := pyGetStrip s.email (("unknown@example.com").toList)
  let message := pyGetStrip s.message (("(no message)").toList)
  (("New contact from ").toList ++ name,
   ("You received a new contact submission.\n\nName: ").toList ++ name ++
     ("\nEmail: ").toList ++ email ++
     ("\n\nMessage:\n").toList ++ message ++ ("\n").toList)

/-- The subject of the composer fallback as the spec words it: the string
New contact from followed by the trimmed name, or Someone when the name is
absent or blank.  Comparison definition for the refinement theorem; written
from the spec text, not from the source. -/
def specComposerSubject (s : Submission) : PyStr :=
  ("New contact from ").toList ++
    (if (pyStrip (s.name.getD [])).isEmpty then ("Someone").toList
     else pyStrip (s.name.getD []))

/-- The body layout of the composer fallback, abstracted over the three
displayed fields: a fixed multi-line layout embedding name, email and
message. -/
def composerBodyLayout (name email message : PyStr) : PyStr :=
  ("You received a new contact submission.\n\nName: ").toList ++ name ++
    ("\nEmail: ").toList ++ email ++
    ("\n\nMessage:\n").toList ++ message ++ ("\n").toList

/-- A Python value sitting under a key of the parsed generative response:
null (or an absent key), a string, a truthy non-string (on which .strip()
raises), or a falsy non-string (which the or-default replaces). -/
inductive PyJson
  | pjnull
  | pjstr (s : PyStr)
  | pjtruthy
  | pjfalsy
deriving DecidableEq, Repr

/-- Outcome of the generative call in ai_formatter.craft_subject_and_body,
at the boundary of the openai client and json.loads: the call (or the lazy
import, or the client construction) raises; the returned content fails to
parse as JSON; it parses to a non-dict (so .get raises AttributeError); or
it parses to a dict with the given entries (a None content is the dict with
no entries, via the or with the empty-object literal). -/
inductive GenOutcome
  | apiRaises
  | decodeError
  | nonObject
  | obj (kvs : List (PyStr × PyJson))
deriving DecidableEq, Repr

/-- Python dict.get on the parsed response (None when the key is absent). -/
def jsonGet (kvs : List (PyStr × PyJson)) (k : PyStr) : PyJson :=
  match kvs.find? (fun kv => kv.1 == k) with
  | some kv => kv.2
  | none => PyJson.pjnull

/-- Python (v or dflt).strip() on a response field: none models the strip
raising on a truthy non-string value. -/
def pyOrStrip (v : PyJson) (dflt : PyStr) : Option PyStr :=
  match v with
  | PyJson.pjnull => some (pyStrip dflt)
  | PyJson.pjfalsy => some (pyStrip dflt)
  | PyJson.pjstr s => if s.isEmpty then some (pyStrip dflt) else some (pyStrip s)
  | PyJson.pjtruthy => none

/-- The default subject used inside the try block of
ai_formatter.craft_subject_and_body when the response object lacks a truthy
subject field. -/
def genSubjectDflt : PyStr := ("New form submission").toList

/-- The default body used inside the try block of
ai_formatter.craft_subject_and_body when the response object lacks a truthy
body field. -/
def genBodyDflt : PyStr := ("See details in the submission.").toList

/-- ai_formatter.craft_subject_and_body: returns the fallback when
OPENAI_API_KEY is absent or empty, and otherwise runs the try block whose
every exception (call failure, decode error, non-dict response, .strip()
on a truthy non-string field) is caught and answered with the fallback. -/
def craftSubjectAndBody (apiKey : Option PyStr) (gen : GenOutcome)
    (s : Submission) : PyStr × PyStr :=
  if !pyTruthy apiKey then fallbackFormat s
  else
    match gen with
    | GenOutcome.apiRaises => fallbackFormat s
    | GenOutcome.decodeError => fallbackFormat s
    | GenOutcome.nonObject => fallbackFormat s
    | GenOutcome.obj kvs =>
      match pyOrStrip (jsonGet kvs (("subject").toList)) genSubjectDflt,
            pyOrStrip (jsonGet kvs (("body").toList)) genBodyDflt with
      | some sub, some bod => (sub, bod)
      | _, _ => fallbackFormat s

/-- email_queue.EmailJob. -/
structure EmailJob where
  recipients : List PyStr
  subject : PyStr
  body : PyStr
  replyTo : Option PyStr
  fromOverride : Option PyStr
  attempts : Nat
deriving DecidableEq, Repr

/-- Default max_retries of EmailQueue.__init__. -/
def defaultMaxRetries : Nat := 5

/-- Default base_backoff_seconds of EmailQueue.__init__. -/
def defaultBaseBackoff : ℚ := 1

/-- Audit events recorded by EmailQueue._worker, keyed by the event_type
strings of the source (email_sent, email_send_retry, email_send_failed);
the attempt counts from the details payload are kept. -/
inductive AuditKind
  | emailSent
  | emailSendRetry (attempt : Nat)
  | emailSendFailed (attempts : Nat)
deriving DecidableEq, Repr

/-- Returns true for the permanent-failure audit event
(event_type email_send_failed). -/
def isPermFailure : AuditKind → Bool
  | AuditKind.emailSendFailed _ => true
  | _ => false

/-- Observable state threaded through one EmailQueue._worker loop body: the
pending FIFO queue (head = next job handed out), the audit events recorded
so far, and the time.sleep durations executed so far. -/
structure WorkerState where
  queue : List EmailJob
  events : List AuditKind
  sleeps : List ℚ
deriving DecidableEq, Repr

/-- The backoff of EmailQueue._worker line 59:
base_backoff * 2 ** (attempts - 1), for attempts ≥ 1. -/
def backoffFor (bb : ℚ) (attempts : Nat) : ℚ := bb * 2 ^ (attempts - 1)

/-- The sleep duration of EmailQueue._worker lines 60-61: jitter is 10% of
the backoff, added on even attempt counts and subtracted on odd ones, the
whole floored at 0.1 seconds. -/
def sleepFor (bb : ℚ) (attempts : Nat) : ℚ :=
  let backoff := backoffFor bb attempts
  let jitter := (1 / 10) * backoff
  max (1 / 10) (backoff + (if attempts % 2 = 0 then jitter else -jitter))

/-- The retry decision of EmailQueue._worker line 57: retry exactly when the
incremented attempt counter is at most max_retries.  The attempt counter is
its sole input. -/
def willRetry (mr attempts : Nat) : Bool := attempts ≤ mr

/-- One iteration of the EmailQueue._worker loop body on a non-empty queue,
with the send_email outcome abstracted as the sendOk flag: on success an
email_sent event is recorded; on failure the attempt counter is
incremented, and the job either sleeps and re-enters the queue at the tail
(attempts ≤ max_retries) or is dropped with one email_send_failed event. -/
def workerStep (mr : Nat) (bb : ℚ) (sendOk : Bool) (st : WorkerState) :
    WorkerState :=
  match st.queue with
  | [] => st
  | j :: rest =>
    if sendOk then
      { queue := rest, events := st.events ++ [AuditKind.emailSent],
        sleeps := st.sleeps }
    else
      let a := j.attempts + 1
      if willRetry mr a then
        { queue := rest ++ [{ j with attempts := a }],
          events := st.events ++ [AuditKind.emailSendRetry a],
          sleeps := st.sleeps ++ [sleepFor bb a] }
      else
        { queue := rest,
          events := st.events ++ [AuditKind.emailSendFailed a],
          sleeps := st.sleeps }

/-- The pruning loop of RateLimiter.allow (rate_limit.py lines 24-25): pop
from the front of the deque while the front timestamp is strictly older
than the cutoff. -/
def pruneWindow (cutoff : ℚ) (dq : List ℚ) : List ℚ :=
  dq.dropWhile (fun t => decide (t < cutoff))

/-- RateLimiter.allow (rate_limit.py): prune, then admit iff the remaining
count is strictly below max_requests, recording now on admission at the
tail of the deque.  Returns (admitted, new deque state). -/
def rlAllow (maxReq : Nat) (windowSeconds : ℚ) (dq : List ℚ) (now : ℚ) :
    Bool × List ℚ :=
  let cutoff := now - windowSeconds
  let dq2 := pruneWindow cutoff dq
  if dq2.length < maxReq then (true, dq2 ++ [now]) else (false, dq2)

/-- RateLimiter.allow applied to a sequence of calls for one identity,
threading the deque; returns the admission verdicts in order and the final
deque. -/
def rlProcess (maxReq : Nat) (window : ℚ) :
    List ℚ → List ℚ → List Bool × List ℚ
  | [], dq => ([], dq)
  | t :: ts, dq =>
    let r := rlAllow maxReq window dq t
    let rest := rlProcess maxReq window ts r.2
    (r.1 :: rest.1, rest.2)

/-- The final value of the loop index i in
ContactRequestHandler._rate_limit_check (app.py lines 100-103):
i = 0; for i in range(len(bucket)): if bucket[i] >= window_start: break.
When no element reaches the window start the loop exhausts and i ends at
the last index (or 0 for an empty bucket). -/
def appPruneIndex (windowStart : ℚ) (bucket : List ℚ) : Nat :=
  match bucket.findIdx? (fun t => decide (windowStart ≤ t)) with
  | some k => k
  | none => bucket.length - 1

/-- ContactRequestHandler._rate_limit_check (app.py lines 94-110), for one
identity bucket: compute the prune index, delete bucket entries before it
only when it is positive, then reject iff the remaining count reaches
REQUESTS_PER_MINUTE, else append now.  The window is the hard-coded 60
seconds.  Returns (admitted, new bucket state). -/
def appRateLimitCheck (reqPerMin : Nat) (bucket : List ℚ) (now : ℚ) :
    Bool × List ℚ :=
  let windowStart := now - 60
  let i := appPruneIndex windowStart bucket
  let bucket2 := if 0 < i then bucket.drop i else bucket
  if reqPerMin ≤ bucket2.length then (false, bucket2)
  else (true, bucket2 ++ [now])

/-- Failure profile of one audit.record_event call: whether
sqlite3.connect, initialize_audit, cursor.execute, connection.commit and
connection.close succeed. -/
structure AuditOracle where
  connectOk : Bool
  initOk : Bool
  execOk : Bool
  commitOk : Bool
  closeOk : Bool
deriving DecidableEq, Repr

/-- One row of the audit_events table. -/
structure AuditRecord where
  eventType : PyStr
  details : PyStr
deriving DecidableEq, Repr

/-- The try-block body of audit.record_event (connect, initialize, insert,
commit): the insert becomes durable only when everything up to the commit
succeeds; any earlier failure raises out of the body. -/
def recordEventBody (o : AuditOracle) (store : List AuditRecord)
    (et det : PyStr) : Except Unit (List AuditRecord) :=
  if !o.connectOk then Except.error ()
  else if !o.initOk then Except.error ()
  else if !o.execOk then Except.error ()
  else if !o.commitOk then Except.error ()
  else Except.ok (store ++ [⟨et, det⟩])

/-- The connection.close() call of the finally clause of
audit.record_event: when the connect itself failed the name connection is
unbound and the call raises NameError; it may also raise on its own. -/
def closeConn (o : AuditOracle) : Except Unit Unit :=
  if !o.connectOk then Except.error ()
  else if !o.closeOk then Except.error ()
  else Except.ok ()

/-- Python try/except-Exception-pass around a computation: a raise is
swallowed and the given fallback value stands. -/
def tryExceptPass {α : Type} (x : Except Unit α) (dflt : α) : Except Unit α :=
  match x with
  | Except.ok a => Except.ok a
  | Except.error _ => Except.ok dflt

/-- audit.record_event: the body under try/except pass, then the finally
clause whose close is itself wrapped in try/except pass; an exception
escaping the finally clause would propagate to the caller, which is why the
result type still allows an error. -/
def recordEvent (o : AuditOracle) (store : List AuditRecord) (et det : PyStr) :
    Except Unit (List AuditRecord) :=
  let body := tryExceptPass (recordEventBody o store et det) store
  let fin := tryExceptPass (closeConn o) ()
  match fin with
  | Except.error e => Except.error e
  | Except.ok _ => body

/-- The validation failures of ContactRequestHandler.do_POST that are
relevant to the admission claims (each is answered with a synchronous 400
response and the handler returns without touching storage or delivery). -/
inductive ContactError
  | missingFields
  | fieldsTooLong
  | invalidEmail
deriving DecidableEq, Repr

/-- The raw JSON fields of a POST /api/contact body, none meaning the key
is absent or null (data.get returning a falsy value). -/
structure ContactData where
  name : Option PyStr
  email : Option PyStr
  message : Option PyStr
deriving DecidableEq, Repr

/-- Python email.split at the first at-sign, second component
(email.split("@", 1)[1]). -/
def pyAfterAt (e : PyStr) : PyStr :=
  (e.dropWhile (fun c => !(c == '@'))).drop 1

/-- The admission validation of ContactRequestHandler.do_POST (app.py lines
169-185): trim the three fields, require all non-empty, enforce the length
ceilings 200/320/4000, then the email shape check: contains an at-sign,
its count is exactly one, a dot occurs after the at-sign, and no space
character (the source tests only the character U+0020) occurs. -/
def validateContact (d : ContactData) :
    Except ContactError (PyStr × PyStr × PyStr) :=
  let name := pyStrip (d.name.getD [])
  let email := pyStrip (d.email.getD [])
  let message := pyStrip (d.message.getD [])
  if name.isEmpty || email.isEmpty || message.isEmpty then
    Except.error ContactError.missingFields
  else if 200 < name.length || 320 < email.length || 4000 < message.length then
    Except.error ContactError.fieldsTooLong
  else if !(email.contains '@') || !(email.count '@' == 1) ||
      !((pyAfterAt email).contains '.') || email.contains ' ' then
    Except.error ContactError.invalidEmail
  else Except.ok (name, email, message)

/-- A character that does not satisfy the predicate survives dropWhile. -/
theorem mem_dropWhile_of_not {c : Char} {p : Char → Bool} :
    ∀ {l : List Char}, c ∈ l → p c = false → c ∈ l.dropWhile p := by
  intro l
  induction l with
  | nil => intro h; cases h
  | cons x xs ih =>
    intro hmem hpc
    rw [List.dropWhile_cons]
    by_cases hx : p x = true
    · rw [if_pos hx]
      rcases List.mem_cons.mp hmem with h | h
      · subst h; rw [hpc] at hx; cases hx
      · exact ih h hpc
    · rw [if_neg hx]
      exact hmem

/-- Every character of the stripped string occurs in the original. -/
theorem pyStrip_subset {c : Char} {l : PyStr} (h : c ∈ pyStrip l) : c ∈ l := by
  unfold pyStrip pyRStrip pyLStrip at h
  rw [List.mem_reverse] at h
  have h1 := (List.dropWhile_sublist _).subset h
  rw [List.mem_reverse] at h1
  exact (List.dropWhile_sublist _).subset h1

/-- A non-whitespace character of the original string survives stripping. -/
theorem mem_pyStrip {c : Char} {l : PyStr} (h : c ∈ l)
    (hc : pyIsSpace c = false) : c ∈ pyStrip l := by
  unfold pyStrip pyRStrip pyLStrip
  rw [List.mem_reverse]
  apply mem_dropWhile_of_not _ hc
  rw [List.mem_reverse]
  exact mem_dropWhile_of_not h hc

/-- A non-empty all-non-whitespace prefix survives rstrip. -/
theorem pyRStrip_keeps_pfx {p l : PyStr} (h : p <+: l) (hne : p ≠ [])
    (hns : ∀ c ∈ p, pyIsSpace c = false) : p <+: pyRStrip l := by
  obtain ⟨tl, rfl⟩ := h
  unfold pyRStrip
  rw [List.reverse_append, List.dropWhile_append]
  by_cases he : (List.dropWhile pyIsSpace tl.reverse).isEmpty = true
  · rw [if_pos he]
    cases hr : p.reverse with
    | nil => exact absurd (List.reverse_eq_nil_iff.mp hr) hne
    | cons x xs =>
      have hx : x ∈ p := by
        rw [← List.mem_reverse, hr]; exact List.mem_cons_self x xs
      rw [List.dropWhile_cons, if_neg (by rw [hns x hx]; simp)]
      rw [← hr, List.reverse_reverse]
  · rw [if_neg he]
    rw [List.reverse_append, List.reverse_reverse]
    exact ⟨_, rfl⟩

/-- A non-empty all-non-whitespace prefix survives strip. -/
theorem pyStrip_keeps_pfx {p l : PyStr} (h : p <+: l) (hne : p ≠ [])
    (hns : ∀ c ∈ p, pyIsSpace c = false) : p <+: pyStrip l := by
  unfold pyStrip
  apply pyRStrip_keeps_pfx _ hne hns
  obtain ⟨tl, rfl⟩ := h
  cases hp : p with
  | nil => exact absurd hp hne
  | cons x xs =>
    subst hp
    unfold pyLStrip
    rw [List.cons_append, List.dropWhile_cons,
      if_neg (by rw [hns x (List.mem_cons_self x xs)]; simp)]
    exact ⟨tl, rfl⟩

/-- Only the slash maps to a slash under ASCII lowering. -/
theorem toLower_eq_slash {c : Char} (h : Char.toLower c = '/') : c = '/' := by
  simp only [Char.toLower] at h
  split at h
  · exfalso
    rename_i hu
    obtain ⟨h1, h2⟩ := hu
    have h3 := congrArg Char.toNat h
    have h4 : ∀ n, n < 91 → 65 ≤ n → (Char.ofNat (n + 32)).toNat ≠ 47 := by
      decide
    exact h4 c.toNat (by omega) h1 (by simpa using h3)
  · exact h

/-- If the lowered stripped string starts with http:// or https:// then the
original string holds a slash. -/
theorem slash_of_webhook_test {t : PyStr}
    (h : httpPfx <+: pyLower t ∨ httpsPfx <+: pyLower t) : '/' ∈ t := by
  have hmem : '/' ∈ pyLower t := by
    rcases h with h | h
    · exact h.subset (by decide)
    · exact h.subset (by decide)
  unfold pyLower at hmem
  obtain ⟨c, hc, hlow⟩ := List.mem_map.mp hmem
  rwa [toLower_eq_slash hlow] at hc

/-- C4: recipient classification is a pure total function on strings; every
recipient beginning with http:// or https:// classifies as a webhook
target, and every string containing exactly one at-sign and no slash (in
particular every such string not beginning with those prefixes) classifies
as an email target. -/
theorem c4_recipient_classification (r : PyStr) :
    ((httpPfx <+: r ∨ httpsPfx <+: r) →
      classifyRecipient r = RecipientClass.webhook) ∧
    (r.count '@' = 1 → '/' ∉ r →
      classifyRecipient r = RecipientClass.email) := by
  constructor
  · intro h
    have hlow : httpPfx <+: pyLower (pyStrip r) ∨
        httpsPfx <+: pyLower (pyStrip r) := by
      rcases h with h | h
      · have hpf := pyStrip_keeps_pfx h (by decide) (by decide)
        have := hpf.map Char.toLower
        rw [show httpPfx.map Char.toLower = httpPfx from by decide] at this
        exact Or.inl this
      · have hpf := pyStrip_keeps_pfx h (by decide) (by decide)
        have := hpf.map Char.toLower
        rw [show httpsPfx.map Char.toLower = httpsPfx from by decide] at this
        exact Or.inr this
    have hne : (pyStrip r).isEmpty = false := by
      rcases h with h | h
      · obtain ⟨tl, htl⟩ := pyStrip_keeps_pfx h (by decide) (by decide)
        rw [← htl]; rfl
      · obtain ⟨tl, htl⟩ := pyStrip_keeps_pfx h (by decide) (by decide)
        rw [← htl]; rfl
    have h2 : (httpPfx.isPrefixOf (pyLower (pyStrip r)) ||
        httpsPfx.isPrefixOf (pyLower (pyStrip r))) = true := by
      rw [Bool.or_eq_true]
      rcases hlow with hl | hl
      · exact Or.inl (( List.isPrefixOf_iff_prefix).mpr hl)
      · exact Or.inr (( List.isPrefixOf_iff_prefix).mpr hl)
    simp only [classifyRecipient]
    rw [if_neg (by rw [hne]; simp), if_pos h2]
  · intro hcount hslash
    have hat : '@' ∈ r := by
      have : 0 < r.count '@' := by omega
      exact List.count_pos_iff.mp this
    have hmem : '@' ∈ pyStrip r := mem_pyStrip hat (by decide)
    have hne : (pyStrip r).isEmpty = false := by
      cases hsr : pyStrip r with
      | nil => rw [hsr] at hmem; cases hmem
      | cons a as => rfl
    have h2 : ¬((httpPfx.isPrefixOf (pyLower (pyStrip r)) ||
        httpsPfx.isPrefixOf (pyLower (pyStrip r))) = true) := by
      intro hb
      rw [Bool.or_eq_true] at hb
      have hsl : '/' ∈ pyStrip r := by
        apply slash_of_webhook_test
        rcases hb with hb | hb
        · exact Or.inl (( List.isPrefixOf_iff_prefix).mp hb)
        · exact Or.inr (( List.isPrefixOf_iff_prefix).mp hb)
      exact hslash (pyStrip_subset hsl)
    simp only [classifyRecipient]
    rw [if_neg (by rw [hne]; simp), if_neg h2]
    split <;> rfl

/-- C4 witness: the classification evaluated at one concrete webhook URL
and one concrete email address. -/
theorem c4_recipient_classification_witness :
    classifyRecipient (("http://example.com/hook").toList) =
      RecipientClass.webhook ∧
    classifyRecipient (("user@example.com").toList) =
      RecipientClass.email := by
  constructor
  · exact (c4_recipient_classification _).1
      (Or.inl ⟨("example.com/hook").toList, by decide⟩)
  · exact (c4_recipient_classification _).2 (by decide) (by decide)

/-- C1: on a dispatch failure whose incremented attempt counter stays within
max_retries (default 5), the worker computes backoff base * 2^(attempts-1),
applies a 10% jitter whose sign follows the parity of the attempt count
(added when even, subtracted when odd) with a 0.1s floor, records that
sleep, and re-enqueues the job at the tail; with base_backoff 1 the first
attempt sleeps within [0.9, 1.1] and the third within [3.6, 4.4]. -/
theorem c1_retry_backoff (mr : Nat) (bb : ℚ) (j : EmailJob)
    (rest : List EmailJob) (evs : List AuditKind) (sl : List ℚ)
    (h : j.attempts + 1 ≤ mr) :
    (workerStep mr bb false ⟨j :: rest, evs, sl⟩).queue
        = rest ++ [{ j with attempts := j.attempts + 1 }] ∧
    (workerStep mr bb false ⟨j :: rest, evs, sl⟩).sleeps
        = sl ++ [sleepFor bb (j.attempts + 1)] ∧
    sleepFor bb (j.attempts + 1)
        = max (1 / 10) (backoffFor bb (j.attempts + 1) +
            (if (j.attempts + 1) % 2 = 0
             then (1 / 10) * backoffFor bb (j.attempts + 1)
             else -((1 / 10) * backoffFor bb (j.attempts + 1)))) ∧
    backoffFor bb (j.attempts + 1) = bb * 2 ^ (j.attempts + 1 - 1) ∧
    defaultMaxRetries = 5 ∧
    (bb = 1 → j.attempts + 1 = 1 →
      9 / 10 ≤ sleepFor bb (j.attempts + 1) ∧
        sleepFor bb (j.attempts + 1) ≤ 11 / 10) ∧
    (bb = 1 → j.attempts + 1 = 3 →
      36 / 10 ≤ sleepFor bb (j.attempts + 1) ∧
        sleepFor bb (j.attempts + 1) ≤ 44 / 10) := by
  have hg : willRetry mr (j.attempts + 1) = true := by
    unfold willRetry
    simpa using h
  refine ⟨?_, ?_, ?_, ?_, rfl, ?_, ?_⟩
  · simp [workerStep, hg]
  · simp [workerStep, hg]
  · rfl
  · rfl
  · intro hb ha
    rw [hb, ha]
    constructor <;> norm_num [sleepFor, backoffFor]
  · intro hb ha
    rw [hb, ha]
    constructor <;> norm_num [sleepFor, backoffFor]

/-- C1 witness: the retry step applied to a fresh job (attempts 0) with the
default configuration: it is re-enqueued at the tail with attempts 1 and
the recorded sleep is exactly 0.9 seconds, inside [0.9, 1.1]. -/
theorem c1_retry_backoff_witness :
    (0 + 1 ≤ 5) ∧
    (workerStep 5 1 false ⟨[⟨[], [], [], none, none, 0⟩], [], []⟩).queue
        = [⟨[], [], [], none, none, 1⟩] ∧
    9 / 10 ≤ sleepFor 1 (0 + 1) ∧ sleepFor 1 (0 + 1) ≤ 11 / 10 := by
  have h := c1_retry_backoff 5 1 ⟨[], [], [], none, none, 0⟩ [] [] []
    (by decide)
  have hi := h.2.2.2.2.2.1 rfl rfl
  exact ⟨by decide, by rw [h.1]; rfl, hi.1, hi.2⟩

/-- C2: on a dispatch failure whose incremented attempt counter exceeds
max_retries, the worker drops the job (the queue keeps only the remaining
jobs, nothing is re-enqueued and no sleep happens) and appends exactly one
email_send_failed audit event carrying the by-one incremented counter; the
retry decision (willRetry) reads nothing of the job but its attempt
counter. -/
theorem c2_drop_after_ceiling (mr : Nat) (bb : ℚ) (j : EmailJob)
    (rest : List EmailJob) (evs : List AuditKind) (sl : List ℚ)
    (h : mr < j.attempts + 1) :
    (workerStep mr bb false ⟨j :: rest, evs, sl⟩).queue = rest ∧
    (workerStep mr bb false ⟨j :: rest, evs, sl⟩).events
        = evs ++ [AuditKind.emailSendFailed (j.attempts + 1)] ∧
    ((workerStep mr bb false ⟨j :: rest, evs, sl⟩).events.countP
        (fun e => isPermFailure e))
      = (evs.countP (fun e => isPermFailure e)) + 1 ∧
    (workerStep mr bb false ⟨j :: rest, evs, sl⟩).sleeps = sl ∧
    (∀ j1 j2 : EmailJob, j1.attempts = j2.attempts →
      willRetry mr (j1.attempts + 1) = willRetry mr (j2.attempts + 1)) := by
  have hg : willRetry mr (j.attempts + 1) = false := by
    unfold willRetry
    simp only [decide_eq_false_iff_not]
    omega
  refine ⟨?_, ?_, ?_, ?_, ?_⟩
  · simp [workerStep, hg]
  · simp [workerStep, hg]
  · simp [workerStep, hg, List.countP_append, isPermFailure]
  · simp [workerStep, hg]
  · intro j1 j2 he
    rw [he]

/-- C2 witness: a job at the retry ceiling (attempts 5, max_retries 5)
fails once more: it is dropped and exactly one permanent-failure audit
event is recorded. -/
theorem c2_drop_after_ceiling_witness :
    (5 < 5 + 1) ∧
    (workerStep 5 1 false ⟨[⟨[], [], [], none, none, 5⟩], [], []⟩).queue
        = [] ∧
    (workerStep 5 1 false ⟨[⟨[], [], [], none, none, 5⟩], [], []⟩).events
        = [AuditKind.emailSendFailed 6] := by
  have h := c2_drop_after_ceiling 5 1 ⟨[], [], [], none, none, 5⟩ [] [] []
    (by decide)
  exact ⟨by decide, h.1, by rw [h.2.1]; rfl⟩

/-- C3: divergence of the two cited rate-limit implementations at the same
concrete input.  Identity history: one admitted request at time 0; next
call at time 100 with a 60-second window and max_requests 1.  The stale
timestamp 0 is older than 100 - 60 = 40, so the claim requires it to be
pruned and the call admitted — RateLimiter.allow does exactly that, but
ContactRequestHandler._rate_limit_check leaves the stale timestamp in
place (its for-loop index stays 0 when no element reaches the window
start, so nothing is deleted) and rejects the call; the bucket is never
cleaned again, permanently rejecting the identity. -/
theorem c3_app_prune_divergence :
    appRateLimitCheck 1 [0] 100 = (false, [0]) ∧
    rlAllow 1 60 [0] 100 = (true, [100]) := by
  constructor
  · simp only [appRateLimitCheck, appPruneIndex, List.findIdx?_cons,
      List.findIdx?_nil]
    norm_num
  · simp only [rlAllow, pruneWindow, List.dropWhile_cons, List.dropWhile_nil]
    norm_num

/-- The pruning of RateLimiter.allow never lengthens the deque. -/
theorem pruneWindow_length_le (cutoff : ℚ) (dq : List ℚ) :
    (pruneWindow cutoff dq).length ≤ dq.length :=
  (List.dropWhile_sublist _).length_le

/-- Sliding-window guarantee of RateLimiter.allow, admission half: starting
from any per-identity state, a run of calls that fits inside the remaining
capacity (at most max_requests minus the current deque length) is admitted
in full — in particular a fresh identity making exactly max_requests calls
is never rejected, at whatever times the calls occur. -/
theorem rl_within_capacity_all_admitted (maxReq : Nat) (w : ℚ) :
    ∀ (ts : List ℚ) (dq : List ℚ), dq.length + ts.length ≤ maxReq →
      ∀ b ∈ (rlProcess maxReq w ts dq).1, b = true := by
  intro ts
  induction ts with
  | nil => intro dq hlen b hb; cases hb
  | cons t ts ih =>
    intro dq hlen b hb
    have hlt : (pruneWindow (t - w) dq).length < maxReq := by
      have := pruneWindow_length_le (t - w) dq
      simp at hlen
      omega
    rw [rlProcess] at hb
    simp only [rlAllow, if_pos hlt, List.mem_cons] at hb
    rcases hb with hb | hb
    · exact hb
    · apply ih _ _ _ hb
      have := pruneWindow_length_le (t - w) dq
      simp only [List.length_append, List.length_cons, List.length_nil]
      simp at hlen
      omega

/-- When every deque entry is at least a and the call time is at most
a + w, RateLimiter.allow prunes nothing. -/
theorem pruneWindow_none (w a t : ℚ) (dq : List ℚ)
    (hmem : ∀ x ∈ dq, a ≤ x) (ht : t ≤ a + w) :
    pruneWindow (t - w) dq = dq := by
  cases dq with
  | nil => rfl
  | cons x xs =>
    unfold pruneWindow
    rw [List.dropWhile_cons, if_neg]
    simp only [decide_eq_true_eq]
    have := hmem x (List.mem_cons_self x xs)
    intro hc
    have : t - w ≤ a := by linarith
    linarith

/-- Sliding-window guarantee of RateLimiter.allow, rejection half
(invariant form): if every call of the run happens inside the closed
interval [a, a + w] and every current deque entry is at least a, then the
number of admissions the run achieves never exceeds the available capacity
max_requests - (current length), i.e. admissions + length ≤ max(max, len). -/
theorem rl_admissions_bounded (maxReq : Nat) (w a : ℚ) :
    ∀ (ts : List ℚ) (dq : List ℚ),
      (∀ t ∈ ts, a ≤ t ∧ t ≤ a + w) → (∀ x ∈ dq, a ≤ x) →
      (rlProcess maxReq w ts dq).1.count true + dq.length
        ≤ max maxReq dq.length := by
  intro ts
  induction ts with
  | nil =>
    intro dq hts hdq
    simp [rlProcess]
  | cons t ts ih =>
    intro dq hts hdq
    have htw := hts t (List.mem_cons_self t ts)
    have hpr : pruneWindow (t - w) dq = dq :=
      pruneWindow_none w a t dq hdq htw.2
    rw [rlProcess]
    by_cases hlt : dq.length < maxReq
    · simp only [rlAllow, hpr, if_pos hlt, List.count_cons]
      have ihh := ih (dq ++ [t]) (fun u hu => hts u (List.mem_cons_of_mem t hu))
        (by
          intro x hx
          rcases List.mem_append.mp hx with hx | hx
          · exact hdq x hx
          · rw [List.mem_singleton.mp hx]; exact htw.1)
      simp only [List.length_append, List.length_cons, List.length_nil] at ihh
      have hmax : max maxReq (dq.length + 1) = maxReq := by omega
      rw [hmax] at ihh
      have hmax2 : max maxReq dq.length = maxReq := by omega
      rw [hmax2]
      simp only [beq_self_eq_true, if_pos]
      omega
    · simp only [rlAllow, hpr, if_neg hlt, List.count_cons]
      have ihh := ih dq (fun u hu => hts u (List.mem_cons_of_mem t hu)) hdq
      simp
      omega

/-- The verdict list of a run has one verdict per call. -/
theorem rlProcess_length (maxReq : Nat) (w : ℚ) :
    ∀ (ts : List ℚ) (dq : List ℚ),
      (rlProcess maxReq w ts dq).1.length = ts.length := by
  intro ts
  induction ts with
  | nil => intro dq; rfl
  | cons t ts ih => intro dq; rw [rlProcess]; simp [ih]

/-- Sliding-window guarantee of RateLimiter.allow, rejection half: a fresh
identity making more than max_requests calls inside one closed window of
width w receives at least one rejection. -/
theorem rl_over_capacity_rejected (maxReq : Nat) (w a : ℚ)
    (ts : List ℚ) (hts : ∀ t ∈ ts, a ≤ t ∧ t ≤ a + w)
    (hover : maxReq < ts.length) :
    ∃ b ∈ (rlProcess maxReq w ts []).1, b = false := by
  have hbound := rl_admissions_bounded maxReq w a ts [] hts (by intro x hx; cases hx)
  simp only [List.length_nil, Nat.add_zero, Nat.max_eq_left (Nat.zero_le maxReq)] at hbound
  by_contra hall
  push_neg at hall
  have hav : ∀ b ∈ (rlProcess maxReq w ts []).1, b = true := by
    intro b hb
    cases b with
    | true => rfl
    | false => exact absurd rfl (hall false hb)
  have hcnt : (rlProcess maxReq w ts []).1.count true
      = (rlProcess maxReq w ts []).1.length := by
    apply List.count_eq_length.mpr
    intro b hb
    rw [hav b hb]
  rw [hcnt, rlProcess_length] at hbound
  omega

/-- C6: the composer fallback is deterministic and side-effect-free — its
output depends on nothing but the three submission fields — its subject is
New contact from followed by the trimmed name or Someone for an absent or
blank name (the spec-worded subject definition), its body is the fixed
layout embedding the three displayed fields, and the all-absent submission
produces exactly the literal defaults. -/
theorem c6_fallback_deterministic (s t : Submission) :
    (fallbackFormat s).1 = specComposerSubject s ∧
    (fallbackFormat s).2 = composerBodyLayout
        (pyGetStrip s.name (("Someone").toList))
        (pyGetStrip s.email (("unknown@example.com").toList))
        (pyGetStrip s.message (("(no message)").toList)) ∧
    (s.name = t.name → s.email = t.email → s.message = t.message →
      fallbackFormat s = fallbackFormat t) ∧
    fallbackFormat ⟨none, none, none⟩ =
      (("New contact from Someone").toList,
       ("You received a new contact submission.\n\nName: Someone\nEmail: unknown@example.com\n\nMessage:\n(no message)\n").toList) := by
  refine ⟨rfl, rfl, ?_, by decide⟩
  intro h1 h2 h3
  cases s
  cases t
  simp only at h1 h2 h3
  rw [h1, h2, h3]

/-- C6 witness: determinism applied at a concrete submission, and the
default subject evaluated on the empty submission. -/
theorem c6_fallback_deterministic_witness :
    fallbackFormat ⟨some (("  Ada  ").toList), none, none⟩
      = fallbackFormat ⟨some (("  Ada  ").toList), none, none⟩ ∧
    (fallbackFormat ⟨none, none, none⟩).1
      = ("New contact from Someone").toList := by
  have h := c6_fallback_deterministic ⟨some (("  Ada  ").toList), none, none⟩
    ⟨some (("  Ada  ").toList), none, none⟩
  refine ⟨h.2.2.1 rfl rfl rfl, ?_⟩
  have h4 := (c6_fallback_deterministic ⟨none, none, none⟩
    ⟨none, none, none⟩).2.2.2
  rw [h4]

/-- C5 counterexample: the response that parses to the empty JSON object
violates the spec's strict shape requirement (no subject and body text
fields), so the claim requires the deterministic fallback pair — but the
code answers it with the inline defaults New form submission / See details
in the submission., which differ from the fallback pair. -/
theorem c5_malformed_not_fallback :
    craftSubjectAndBody (some (("k").toList)) (GenOutcome.obj [])
        ⟨none, none, none⟩
      ≠ fallbackFormat ⟨none, none, none⟩ := by decide

/-- C5 amended: compose is total and never fails its caller; on missing
configuration (absent key — and also an empty one), on a raising call, on
an undecodable response and on a non-object response it returns the
deterministic fallback pair; but a response parsing to an object without
the required fields is answered with the inline defaults, not with the
fallback. -/
theorem c5_compose_error_recovery (key : Option PyStr) (gen : GenOutcome)
    (s : Submission) (k : PyStr) (hk : k ≠ []) :
    craftSubjectAndBody none gen s = fallbackFormat s ∧
    craftSubjectAndBody key GenOutcome.apiRaises s = fallbackFormat s ∧
    craftSubjectAndBody key GenOutcome.decodeError s = fallbackFormat s ∧
    craftSubjectAndBody key GenOutcome.nonObject s = fallbackFormat s ∧
    craftSubjectAndBody (some k) (GenOutcome.obj []) s
      = (genSubjectDflt, genBodyDflt) := by
  refine ⟨rfl, ?_, ?_, ?_, ?_⟩
  · unfold craftSubjectAndBody; split <;> rfl
  · unfold craftSubjectAndBody; split <;> rfl
  · unfold craftSubjectAndBody; split <;> rfl
  · have hke : k.isEmpty = false := by
      cases k with
      | nil => exact absurd rfl hk
      | cons a as => rfl
    unfold craftSubjectAndBody
    rw [show (!pyTruthy (some k)) = false from by simp [pyTruthy, hke]]
    rfl

/-- C5 witness: the amended statement applied at a concrete key and the
empty submission. -/
theorem c5_compose_error_recovery_witness :
    craftSubjectAndBody (some (("k").toList)) (GenOutcome.obj [])
        ⟨none, none, none⟩ = (genSubjectDflt, genBodyDflt) ∧
    craftSubjectAndBody none GenOutcome.apiRaises ⟨none, none, none⟩
      = fallbackFormat ⟨none, none, none⟩ := by
  have h := c5_compose_error_recovery none GenOutcome.apiRaises
    ⟨none, none, none⟩ (("k").toList) (by decide)
  exact ⟨h.2.2.2.2, h.1⟩

/-- C7 counterexample: MAIL_FROM is unset and the only from-override is NOT
permitted (ALLOW_SUBMITTER_AS_FROM false), so per the claim no permitted
override is available and the call should fail with a configuration error;
the code instead proceeds and emits the dev fallback with a None sender,
because its guard tests the mere presence of from_override, not its
permission. -/
theorem c7_unpermitted_override_not_error :
    sendEmail ⟨none, false, none⟩ [("c@d").toList] (("s").toList)
        (("b").toList) none (some (("a@b").toList))
      = Except.ok [DispatchAction.devPrint none [("c@d").toList] none
          (("s").toList) (("b").toList)] := rfl

/-- C7 amended: send_email raises the MAIL_FROM configuration error exactly
when the configured sender is falsy AND no from-override at all (permitted
or not) is supplied; and, when that first guard passes, a recipient list
partitioning to no email and no webhook targets raises the no-recipients
error. -/
theorem c7_config_errors (env : MailEnv) (rcpts : List PyStr)
    (subject body : PyStr) (replyTo fromOverride : Option PyStr) :
    (pyTruthy env.mailFrom = false → pyTruthy fromOverride = false →
      sendEmail env rcpts subject body replyTo fromOverride
        = Except.error MailConfigError.mailFromNotConfigured) ∧
    ((pyTruthy env.mailFrom = true ∨ pyTruthy fromOverride = true) →
      partitionRecipients rcpts = ([], []) →
      sendEmail env rcpts subject body replyTo fromOverride
        = Except.error MailConfigError.noRecipients) := by
  constructor
  · intro h1 h2
    simp [sendEmail, h1, h2]
  · intro h1 h2
    rcases h1 with h1 | h1 <;> simp [sendEmail, h1, h2]

/-- C7 witness: both configuration errors observed at concrete inputs via
the amended statement. -/
theorem c7_config_errors_witness :
    sendEmail ⟨none, false, none⟩ [] [] [] none none
      = Except.error MailConfigError.mailFromNotConfigured ∧
    sendEmail ⟨some (("x@y").toList), false, none⟩ [] [] [] none none
      = Except.error MailConfigError.noRecipients := by
  constructor
  · exact (c7_config_errors ⟨none, false, none⟩ [] [] [] none none).1 rfl rfl
  · exact (c7_config_errors ⟨some (("x@y").toList), false, none⟩ [] [] []
      none none).2 (Or.inl rfl) rfl

/-- C8: whenever send_email succeeds, every webhook POST it performs
carries a JSON object with exactly the four keys subject, body, reply_to
and from (in that order, nothing else), and the payload is the
webhookPayload dict built from the job fields. -/
theorem c8_webhook_payload_keys (env : MailEnv) (rcpts : List PyStr)
    (subject body : PyStr) (replyTo fromOverride : Option PyStr)
    (acts : List DispatchAction)
    (hok : sendEmail env rcpts subject body replyTo fromOverride
      = Except.ok acts) :
    ∀ a ∈ acts, ∀ url payload, a = DispatchAction.webhookPost url payload →
      payload.map Prod.fst
          = [("subject").toList, ("body").toList,
             ("reply_to").toList, ("from").toList] ∧
      ∃ fromVal, payload = webhookPayload subject body replyTo fromVal := by
  intro a ha url payload hpost
  simp only [sendEmail] at hok
  split at hok
  · exact Except.noConfusion hok
  · split at hok
    · exact Except.noConfusion hok
    · injection hok with hok
      subst hok
      rcases List.mem_append.mp ha with hm | hm
      · split at hm
        · cases hm
        · split at hm
          · rw [List.mem_singleton.mp hm] at hpost
            exact DispatchAction.noConfusion hpost
          · rw [List.mem_singleton.mp hm] at hpost
            exact DispatchAction.noConfusion hpost
      · obtain ⟨u, hu, hpay⟩ := List.mem_map.mp hm
        rw [← hpay] at hpost
        injection hpost with hurl hpayload
        rw [← hpayload]
        exact ⟨rfl, _, rfl⟩

/-- C8 witness: the payload keys fact obtained through the theorem at a
concrete webhook dispatch. -/
theorem c8_webhook_payload_keys_witness :
    (webhookPayload (("s").toList) (("b").toList) none
        (some (("x@y").toList))).map Prod.fst
      = [("subject").toList, ("body").toList,
         ("reply_to").toList, ("from").toList] := by
  have h := c8_webhook_payload_keys ⟨some (("x@y").toList), false, none⟩
    [("http://h").toList] (("s").toList) (("b").toList) none none
    [DispatchAction.webhookPost (("http://h").toList)
      (webhookPayload (("s").toList) (("b").toList) none
        (some (("x@y").toList)))]
    (by rfl)
  exact (h _ (List.mem_singleton.mpr rfl) _ _ rfl).1

/-- C9 counterexample: the email a@b.(tab)c carries an embedded whitespace
character (the tab), so per the claim admission must reject it; the code
checks only for the space character U+0020 and accepts the submission. -/
theorem c9_tab_email_accepted :
    validateContact ⟨some (("Bo").toList), some (("a@b.\tc").toList),
        some (("hi").toList)⟩
      = Except.ok ((("Bo").toList), (("a@b.\tc").toList), (("hi").toList)) ∧
    '\t' ∈ (("a@b.\tc").toList) ∧ ('\t').isWhitespace = true := by
  refine ⟨rfl, by decide, by decide⟩

/-- C9 amended: an accepted submission satisfies the field ceilings on the
trimmed fields (name at most 200, email at most 320, message at most 4000),
and its email contains exactly one at-sign, a dot after the at-sign, and no
embedded space character U+0020 (other whitespace such as a tab passes the
check); the accepted triple is exactly the trimmed fields.  A failed check
returns an error, entering neither storage nor delivery. -/
theorem c9_admission_checks (d : ContactData) (n e m : PyStr)
    (h : validateContact d = Except.ok (n, e, m)) :
    e.count '@' = 1 ∧ '.' ∈ pyAfterAt e ∧ ' ' ∉ e ∧
    n.length ≤ 200 ∧ e.length ≤ 320 ∧ m.length ≤ 4000 ∧
    n = pyStrip (d.name.getD []) ∧ e = pyStrip (d.email.getD []) ∧
    m = pyStrip (d.message.getD []) := by
  simp only [validateContact] at h
  split at h
  · exact Except.noConfusion h
  · split at h
    · exact Except.noConfusion h
    · split at h
      · exact Except.noConfusion h
      · rename_i hc1 hc2 hc3
        injection h with h
        simp only [Prod.mk.injEq] at h
        obtain ⟨h1, h2, h3⟩ := h
        subst h1
        subst h2
        subst h3
        simp at hc2
        simp at hc3
        obtain ⟨⟨⟨g1, g2⟩, g3⟩, g4⟩ := hc3
        refine ⟨g2, g3, g4, ?_, ?_, ?_, rfl, rfl, rfl⟩
        · omega
        · omega
        · omega

/-- C9 witness: the amended statement applied to a concrete accepted
submission. -/
theorem c9_admission_checks_witness :
    ((("a@b.c").toList).count '@' = 1) ∧ (' ' ∉ (("a@b.c").toList)) := by
  have h := c9_admission_checks
    ⟨some (("Al").toList), some (("a@b.c").toList), some (("hi").toList)⟩
    (("Al").toList) (("a@b.c").toList) (("hi").toList) rfl
  exact ⟨h.1, h.2.2.1⟩

/-- C10: record_event never raises to its caller whatever fails among
connect, table initialization, insert, commit and close (including the
NameError inside the finally clause when the connect itself failed): the
result is always a normal return, with the audit store either extended by
exactly the one new row or left unchanged. -/
theorem c10_audit_never_raises (o : AuditOracle) (store : List AuditRecord)
    (et det : PyStr) :
    ∃ st, recordEvent o store et det = Except.ok st ∧
      (st = store ∨ st = store ++ [⟨et, det⟩]) := by
  obtain ⟨c, i, e, cm, cl⟩ := o
  cases c <;> cases i <;> cases e <;> cases cm <;> cases cl <;>
    first
      | exact ⟨_, rfl, Or.inl rfl⟩
      | exact ⟨_, rfl, Or.inr rfl⟩
